import Mathlib

/-!
Verification development for the NyaDeskPet plugin dispatch core
(`src/plugins/terminal-plugin/main.py` and
`src/plugins/file-editor-plugin/main.py`).

The Python code is shallowly embedded as pure Lean functions:
  * interactions with the operating system (subprocess outcomes, UDP
    delivery, `Popen` success, permission grants arriving over the
    websocket) are passed in explicitly as oracle/effect records;
  * `uuid.uuid4()` is modelled as a fresh-id counter (`nextId`): the only
    property the code relies on is that a freshly generated id is distinct
    from every id still pending, which the counter models exactly;
  * Python exceptions are modelled with `Except String`;
  * JSON dict messages are modelled as structures of optional fields;
    correlation ids (`requestId` values) are modelled as `Nat`.
-/

namespace NyaPet

/-- Character-list version of Python's `sub in s` test: does `needle`
occur at the start of `hay`? -/
def startsWithChars : List Char → List Char → Bool
  | [], _ => true
  | _ :: _, [] => false
  | a :: as, b :: bs => a = b && startsWithChars as bs

/-- Does `needle` occur anywhere inside `hay` (Python `needle in hay`)?
An empty needle occurs in every string, as in Python. -/
def occursIn (needle : List Char) : List Char → Bool
  | [] => startsWithChars needle []
  | c :: cs => startsWithChars needle (c :: cs) || occursIn needle cs

/-- Python `sub in s` on strings. -/
def strContains (s sub : String) : Bool := occursIn sub.toList s.toList

/-- Python `s.lower()` over the characters of `s`. -/
def lowerChars (l : List Char) : List Char := l.map Char.toLower

/-- Python `s.split(",")` over characters. -/
def splitOnCommaChars : List Char → List (List Char)
  | [] => [[]]
  | c :: cs =>
      if c = ',' then [] :: splitOnCommaChars cs
      else
        match splitOnCommaChars cs with
        | [] => [[c]]
        | h :: t => (c :: h) :: t

/-- Python `s.strip()` over characters. -/
def trimChars (l : List Char) : List Char :=
  ((l.dropWhile Char.isWhitespace).reverse.dropWhile Char.isWhitespace).reverse

/-- Python slice `s[:n]`. -/
def strTake (s : String) (n : Nat) : String := String.mk (s.toList.take n)

/-- Configuration values stored in the session's config map
(`self.config`, an opaque JSON object in the code). -/
inductive CVal where
  | b (x : Bool)
  | n (x : Nat)
  | s (x : String)
  | list (xs : List String)
  deriving DecidableEq, Repr

/-- Python truthiness of a config value (`if self.get_config(...)`). -/
def CVal.truthy : CVal → Bool
  | .b x => x
  | .n x => x ≠ 0
  | .s x => x ≠ ""
  | .list xs => !xs.isEmpty

/-- The session configuration map (`self.config`), a JSON object
embedded as an association list. -/
abbrev Config := List (String × CVal)

/-- `self.config.get(key)` — lookup without a default. -/
def getConfigVal (cfg : Config) (k : String) : Option CVal :=
  (cfg.find? (fun p => p.1 = k)).map (fun p => p.2)

/-- `self.get_config("show_ui", True)` under Python truthiness. -/
def getShowUI (cfg : Config) : Bool :=
  match getConfigVal cfg "show_ui" with
  | some v => v.truthy
  | none => true

/-- `self.get_config("backup_before_edit", True)` under Python truthiness. -/
def getBackupBeforeEdit (cfg : Config) : Bool :=
  match getConfigVal cfg "backup_before_edit" with
  | some v => v.truthy
  | none => true

/-- Default dangerous-command list from `is_dangerous_command`
(main.py line 268). -/
def defaultDangerous : List String :=
  ["rm -rf", "del /f", "format", "mkfs", "dd if=", ">(", "curl", "wget"]

/-- `self.get_config("dangerousCommands", [...])`; a configured value of a
non-list shape is not modelled (it would make the comprehension raise). -/
def getDangerousList (cfg : Config) : List String :=
  match getConfigVal cfg "dangerousCommands" with
  | some (.list xs) => xs
  | _ => defaultDangerous

/-- `self.get_config("allowed_directories", "")` for the file editor. -/
def getAllowedDirs (cfg : Config) : String :=
  match getConfigVal cfg "allowed_directories" with
  | some (.s x) => x
  | _ => ""

/-- Default UI UDP port (`DEFAULT_UI_PORT` in the terminal plugin). -/
def DEFAULT_UI_PORT : Nat := 19099

/-- `int(self.get_config("ui_port", DEFAULT_UI_PORT))`. -/
def getUiPort (cfg : Config) : Nat :=
  match getConfigVal cfg "ui_port" with
  | some (.n x) => x
  | _ => DEFAULT_UI_PORT

/-- `TerminalPlugin.is_dangerous_command`: any configured dangerous
substring occurring in `command.lower()`. -/
def isDangerousCommand (cfg : Config) (command : String) : Bool :=
  (getDangerousList cfg).any
    (fun danger => occursIn danger.toList (lowerChars command.toList))

/-!
Permission broker (`request_permission` + the `permission_response`
branch of `handle_client`, terminal plugin lines 159–164 and 241–264;
the file-editor plugin repeats the same code verbatim at lines 103–107
and 169–184).

The registry `self.pending_permissions` maps correlation ids to
unresolved futures.  `resolvedIds` is a ghost field recording every id
whose future was ever resolved (by `set_result`) or whose call returned
by timeout; it lets us state the exactly-once property.
-/

structure BrokerState where
  nextId : Nat
  pending : List Nat
  resolvedIds : List Nat
  deriving DecidableEq, Repr

/-- Initial broker state: `self.pending_permissions = {}`. -/
def brokerInit : BrokerState := { nextId := 0, pending := [], resolvedIds := [] }

/-- Events touching the registry:
`request` is `request_permission` registering a fresh correlation id;
`response id g` is the pump's `permission_response` branch;
`timeout id` is the `asyncio.TimeoutError` branch popping the id. -/
inductive BEvent where
  | request
  | response (id : Nat) (granted : Bool)
  | timeout (id : Nat)
  deriving DecidableEq, Repr

/-- One registry transition.  The second component is the resolution this
event produced: `some (id, some g)` when a pending future was resolved
with `granted = g`, `some (id, none)` when a pending request timed out
(fail-closed), `none` when nothing was resolved (a response for an id not
in the registry is silently ignored, mirroring
`if request_id in self.pending_permissions`). -/
def brokerStep (st : BrokerState) : BEvent → BrokerState × Option (Nat × Option Bool)
  | .request =>
      ({ st with nextId := st.nextId + 1, pending := st.nextId :: st.pending }, none)
  | .response id g =>
      if id ∈ st.pending then
        ({ st with pending := st.pending.erase id,
                   resolvedIds := id :: st.resolvedIds }, some (id, some g))
      else (st, none)
  | .timeout id =>
      if id ∈ st.pending then
        ({ st with pending := st.pending.erase id,
                   resolvedIds := id :: st.resolvedIds }, some (id, none))
      else (st, none)

/-- Run a sequence of registry events, collecting resolutions. -/
def brokerRun (st : BrokerState) : List BEvent → BrokerState × List (Nat × Option Bool)
  | [] => (st, [])
  | e :: es =>
      let p := brokerStep st e
      let q := brokerRun p.1 es
      (q.1, p.2.toList ++ q.2)

/-- What `request_permission` returns once its future settles:
the carried `granted` boolean if a matching response arrived,
`False` on `asyncio.TimeoutError` (fail-closed). -/
def requestPermissionReturn : Option Bool → Bool
  | some g => g
  | none => false

/-- Registry well-formedness: pending ids are distinct and below the
generator counter; resolved ids are below the counter, never pending
again, and pairwise distinct. -/
def BrokerInv (st : BrokerState) : Prop :=
  st.pending.Nodup ∧
  (∀ i ∈ st.pending, i < st.nextId) ∧
  (∀ i ∈ st.resolvedIds, i < st.nextId) ∧
  (∀ i ∈ st.resolvedIds, i ∉ st.pending) ∧
  st.resolvedIds.Nodup

instance (st : BrokerState) : Decidable (BrokerInv st) := by
  unfold BrokerInv; infer_instance

/-!
Messages, responses, and the action-dispatch layer
(`handle_client` / `_dispatch_action` / `handle_message` /
`execute_command`, terminal plugin lines 96–423; the file-editor plugin's
`handle_client` / `_dispatch_action` / `handle_message` are structurally
identical at lines 47–224).
-/

/-- A `plugin_response` dict built by the plugin.  Every such dict in
the code carries `"type": "plugin_response"`, which the `Frame.response`
constructor below encodes; the localized `error` and `locale` string
fields are not tracked — `errorKey` identifies the error kind exactly as
the code does. -/
structure Response where
  success : Bool
  errorKey : Option String := none
  requiredPermission : Option String := none
  requestId : Option Nat := none
  action : Option String := none
  deriving DecidableEq, Repr

/-- Frames the plugin writes to the websocket channel. -/
inductive Frame where
  | response (r : Response)
  | permissionRequest (requestId : Nat) (permissionId : String) (operation : String)
  | getConfigRequest
  | metadata
  | connected
  deriving DecidableEq, Repr

/-- A UDP event pushed to the monitor UI (`broadcast_to_ui` payloads).
Only the fields the claims inspect are kept. -/
structure UEvent where
  etype : String
  event : String
  stdout : Option String := none
  stderr : Option String := none
  oldContent : Option String := none
  newContent : Option String := none
  deriving DecidableEq, Repr

/-- The `params` sub-dict of an inbound action message. -/
structure Params where
  command : Option String := none
  path : Option String := none
  content : Option String := none
  old_text : Option String := none
  new_text : Option String := none
  locale : Option String := none
  deriving DecidableEq, Repr

/-- A successfully JSON-decoded inbound message (a dict of optional
fields, mirroring `data.get(...)` accesses). -/
structure Msg where
  action : Option String := none
  mtype : Option String := none
  requestId : Option Nat := none
  granted : Option Bool := none
  config : Option Config := none
  locale : Option String := none
  params : Params := {}
  deriving DecidableEq, Repr

/-- An inbound websocket payload: either it fails `json.loads`
(`malformed`) or it decodes to a message. -/
inductive Inbound where
  | malformed
  | msg (m : Msg)
  deriving DecidableEq, Repr

/-- Outcome of the `subprocess.run` call inside `execute_command`,
supplied by the environment. -/
inductive RunOutcome where
  | finished (stdout stderr : String) (exitCode : Int)
  | timedOut
  | osError (msg : String)
  deriving DecidableEq, Repr

/-- Environment oracle for one dispatched action: the permission grant
the broker resolves to, the subprocess outcome, the outcome of the five
session-management operations (whose internals are irrelevant to the
dispatch layer: either a normal response or a raised exception), whether
`subprocess.Popen` of the UI succeeds, and whether the UDP `sendto`
succeeds. -/
structure StepEff where
  grant : Bool := true
  runResult : RunOutcome := .finished "" "" 0
  opResult : Except String Response := .ok { success := true }
  startOk : Bool := true
  sendOk : Bool := true
  backupOk : Bool := true

/-- Result of `broadcast_to_ui`: which events were handed to `sendto`
(only when the UDP socket exists), which were actually delivered, and
whether anything propagated out of the call (never — the body is wrapped
in `try/except: pass`). -/
structure BCast where
  attempted : List UEvent
  delivered : List UEvent
  raised : Bool

/-- `broadcast_to_ui` (terminal plugin lines 273–281; `_broadcast_ui` in
the file editor, lines 489–496): returns immediately when no UDP socket
exists, otherwise attempts a single datagram send whose failure is
swallowed. -/
def broadcastToUI (uiSock : Bool) (sendOk : Bool) (ev : UEvent) : BCast :=
  if uiSock then
    { attempted := [ev], delivered := if sendOk then [ev] else [], raised := false }
  else
    { attempted := [], delivered := [], raised := false }

/-- Everything one capability operation produces: its outcome (a response,
or a raised Python exception), channel frames sent during the operation
(permission requests), UDP broadcast attempts and deliveries, and the
commands passed to `subprocess.run`. -/
structure OpOut where
  out : Except String Response
  chan : List Frame := []
  udpAttempted : List UEvent := []
  udpDelivered : List UEvent := []
  spawned : List String := []

/-- Error response shape shared by the validation branches of
`execute_command` (explicit `"requiredPermission": None`). -/
def errorResp (key : String) (perm : Option String := none) : Response :=
  { success := false, errorKey := some key, requiredPermission := perm }

/-- `execute_command` (terminal plugin lines 320–423).  `freshId` is the
correlation id `uuid.uuid4()` would mint for the permission request. -/
def executeCommand (cfg : Config) (freshId : Nat) (uiSock : Bool)
    (params : Params) (eff : StepEff) : OpOut :=
  match params.command with
  | none => { out := .ok (errorResp "error.command_required") }
  | some command =>
    if command = "" then
      -- `if not command:` — the empty string is falsy
      { out := .ok (errorResp "error.command_required") }
    else
      let dangerous := isDangerousCommand cfg command
      let permFrames : List Frame :=
        if dangerous then [.permissionRequest freshId "terminal.execute" "execute_command"] else []
      if dangerous && !eff.grant then
        { out := .ok (errorResp "error.permission_denied" (some "terminal.execute")),
          chan := permFrames }
      else
        -- broadcast command_start, then run the command
        let bc1 := broadcastToUI uiSock eff.sendOk
          { etype := "terminal_output", event := "command_start" }
        match eff.runResult with
        | .finished stdout stderr _exitCode =>
            -- broadcast command_output (the full stdout/stderr, untruncated)
            -- and command_end, then return the success response
            let bc2 := broadcastToUI uiSock eff.sendOk
              { etype := "terminal_output", event := "command_output",
                stdout := some stdout, stderr := some stderr }
            let bc3 := broadcastToUI uiSock eff.sendOk
              { etype := "terminal_output", event := "command_end" }
            { out := .ok { success := true, action := some "execute",
                           requiredPermission :=
                             if isDangerousCommand cfg command then some "terminal.execute"
                             else none },
              chan := permFrames,
              udpAttempted := bc1.attempted ++ bc2.attempted ++ bc3.attempted,
              udpDelivered := bc1.delivered ++ bc2.delivered ++ bc3.delivered,
              spawned := [command] }
        | .timedOut =>
            let bc2 := broadcastToUI uiSock eff.sendOk
              { etype := "terminal_output", event := "command_error" }
            { out := .ok { success := false, errorKey := some "error.command_timeout",
                           requiredPermission :=
                             if isDangerousCommand cfg command then some "terminal.execute"
                             else none },
              chan := permFrames,
              udpAttempted := bc1.attempted ++ bc2.attempted,
              udpDelivered := bc1.delivered ++ bc2.delivered,
              spawned := [command] }
        | .osError msg =>
            -- an unexpected exception from subprocess.run propagates out
            { out := .error msg,
              chan := permFrames,
              udpAttempted := bc1.attempted,
              udpDelivered := bc1.delivered,
              spawned := [command] }

/-- The action names `handle_message` routes (terminal plugin
lines 289–302). -/
def registeredActions : List String :=
  ["execute", "createSession", "getSessions", "closeSession",
   "sendInput", "getCurrentDirectory", "resize"]

/-- The `else` branch of `handle_message`: unknown action. -/
def unknownActionResp : Response :=
  { success := false, errorKey := some "error.unknown_action" }

/-- `resize` (lines 640–648): unconditionally unsupported. -/
def resizeResp : Response :=
  { success := false, errorKey := some "info.resize_not_supported" }

/-- The routing `if/elif` chain inside `handle_message`'s `try:` block
(lines 288–310).  `execute` is modelled in full; the five
session-management operations do not interact with the dispatch layer
beyond returning a response or raising, so their outcome is the
environment's `opResult`. -/
def routeAction (cfg : Config) (freshId : Nat) (uiSock : Bool)
    (m : Msg) (eff : StepEff) : OpOut :=
  if m.action = some "execute" then executeCommand cfg freshId uiSock m.params eff
  else if m.action = some "createSession" then { out := eff.opResult }
  else if m.action = some "getSessions" then { out := eff.opResult }
  else if m.action = some "closeSession" then { out := eff.opResult }
  else if m.action = some "sendInput" then { out := eff.opResult }
  else if m.action = some "getCurrentDirectory" then { out := eff.opResult }
  else if m.action = some "resize" then { out := .ok resizeResp }
  else { out := .ok unknownActionResp }

/-- The `except Exception` branch of `handle_message` (lines 311–318):
any raised failure becomes an `error.execution_failed` response. -/
def execFailedResp : Response :=
  { success := false, errorKey := some "error.execution_failed" }

/-- What one call of `handle_message` produces after its own
`try/except`: always a response, never a propagated exception. -/
structure HMOut where
  resp : Response
  chan : List Frame
  udpAttempted : List UEvent
  udpDelivered : List UEvent
  spawned : List String

/-- `handle_message` (lines 283–318): route the action and catch any
failure, converting it to `error.execution_failed`. -/
def handleMessage (cfg : Config) (freshId : Nat) (uiSock : Bool)
    (m : Msg) (eff : StepEff) : HMOut :=
  let o := routeAction cfg freshId uiSock m eff
  { resp := match o.out with
            | .ok r => r
            | .error _ => execFailedResp,
    chan := o.chan,
    udpAttempted := o.udpAttempted,
    udpDelivered := o.udpDelivered,
    spawned := o.spawned }

/-- What one `_dispatch_action` task produces: the frames successfully
written to the channel, the operation's side traffic, and whether any
exception escaped the task (never). -/
structure DOut where
  written : List Frame
  chan : List Frame
  udpAttempted : List UEvent
  udpDelivered : List UEvent
  spawned : List String
  raised : Bool

/-- `_dispatch_action` (terminal plugin lines 196–217, file editor
lines 138–158).  `w1` tells whether the first channel write succeeds;
on its failure the `except` branch builds an `error.execution_failed`
response (also echoing `requestId`) and attempts one best-effort write,
whose success is `w2` and whose failure is swallowed. -/
def dispatchAction (cfg : Config) (freshId : Nat) (uiSock : Bool)
    (m : Msg) (eff : StepEff) (w1 w2 : Bool) : DOut :=
  let h := handleMessage cfg freshId uiSock m eff
  -- `if "requestId" in data: response["requestId"] = data["requestId"]`
  let resp := match m.requestId with
              | some r => { h.resp with requestId := some r }
              | none => h.resp
  let written :=
    if w1 then [Frame.response resp]
    else
      let errR : Response :=
        match m.requestId with
        | some r => { execFailedResp with requestId := some r }
        | none => execFailedResp
      if w2 then [Frame.response errR] else []
  { written := written, chan := h.chan,
    udpAttempted := h.udpAttempted, udpDelivered := h.udpDelivered,
    spawned := h.spawned, raised := false }

/-!
The message pump (`handle_client`, terminal plugin lines 96–194).

`active` models the session status: the loop body never sets it to
false — the session leaves `Active` only when the `async for` ends
(peer close) or the process shuts down, both outside the loop.
`uiSock`/`uiProc` model `self._ui_sock`/`self._ui_process`;
`startCount` is a ghost counter of successful UI bootstraps.
-/

/-- One `TerminalSession` as the lifecycle claims see it:
`hasProc` is `self.process is not None`, `alive` is
`self.process.poll() is None`. -/
structure TermSess where
  hasProc : Bool
  alive : Bool
  deriving DecidableEq, Repr

structure PState where
  active : Bool
  locale : String
  config : Config
  pending : List Nat
  nextId : Nat
  uiSock : Bool
  uiProc : Bool
  startCount : Nat
  uiPort : Nat
  sessions : List (String × TermSess)
  clients : List Nat
  deriving DecidableEq, Repr

/-- Session state right after `handle_client` adds the client
(mirroring `TerminalPlugin.__init__`). -/
def initialPState : PState :=
  { active := true, locale := "en-US", config := [], pending := [],
    nextId := 0, uiSock := false, uiProc := false, startCount := 0,
    uiPort := DEFAULT_UI_PORT, sessions := [], clients := [0] }

/-- The `except json.JSONDecodeError` branch (lines 170–177): a
`ProtocolError` response carrying no `requestId`. -/
def invalidJsonResp : Response :=
  { success := false, errorKey := some "error.invalid_json" }

/-- The `setLocale` branch's success response (lines 133–138). -/
def setLocaleOkResp : Response :=
  { success := true }

/-- One iteration of the `async for message in websocket` loop body
(lines 112–189), mirroring the code's branch order exactly:
`getMetadata` → `setLocale` → `getConfig` → `plugin_config` →
`permission_response` → background dispatch.  Dispatched actions run as
background tasks; their channel traffic is collected here with
successful writes (write failure inside a task is modelled in
`dispatchAction`).  The correlation-id dynamics of in-flight permission
requests are modelled by `BrokerState` above. -/
def pumpStep (st : PState) (inb : Inbound) (eff : StepEff) : PState × List Frame :=
  match inb with
  | .malformed => (st, [.response invalidJsonResp])
  | .msg m =>
    if m.action = some "getMetadata" then
      ({ st with locale := m.locale.getD "en-US" }, [.metadata])
    else if m.action = some "setLocale" then
      ({ st with locale := m.params.locale.getD "en-US" }, [.response setLocaleOkResp])
    else if m.action = some "getConfig" then
      (st, [.getConfigRequest])
    else if m.mtype = some "plugin_config" then
      -- `self.config = data.get("config", {})` — wholesale replacement
      let cfg := m.config.getD []
      let st1 := { st with config := cfg, uiPort := getUiPort cfg }
      if getShowUI cfg && !st1.uiProc then
        -- `_start_ui` (lines 660–685): the UDP socket is created first,
        -- then Popen; on Popen failure `_ui_process` stays None
        (({ st1 with uiSock := true, uiProc := eff.startOk,
                     startCount := st1.startCount + (if eff.startOk then 1 else 0) }), [])
      else (st1, [])
    else if m.mtype = some "permission_response" then
      match m.requestId with
      | some rid =>
          if rid ∈ st.pending then ({ st with pending := st.pending.erase rid }, [])
          else (st, [])
      | none => (st, [])
    else
      let d := dispatchAction st.config st.nextId st.uiSock m eff true true
      (st, d.chan ++ d.written)

/-- Run the pump over a trace of inbound payloads with their
environment oracles. -/
def pumpRun (st : PState) : List (Inbound × StepEff) → PState × List Frame
  | [] => (st, [])
  | (i, e) :: tr =>
      let p := pumpStep st i e
      let q := pumpRun p.1 tr
      (q.1, p.2 ++ q.2)

/-!
Session teardown (`handle_client`'s `finally`, lines 191–194, and
`TerminalSession.terminate` / `TerminalPlugin.cleanup`, lines 67–77 and
687–708).
-/

inductive TermOutcome where
  | graceful
  | killed
  deriving DecidableEq, Repr

/-- The grace period passed to `process.wait(timeout=3)` before
escalating to `process.kill()`. -/
def terminateGraceSeconds : Nat := 3

/-- `TerminalSession.terminate` (lines 67–77): `terminate()`, wait up to
`terminateGraceSeconds`; on `TimeoutExpired` (`gracefulOk = false`)
escalate to `kill()`.  Either way the process ends up not alive.
A session that never started a process is untouched. -/
def terminateSession (s : TermSess) (gracefulOk : Bool) : TermSess × Option TermOutcome :=
  if s.hasProc then
    if gracefulOk then ({ s with alive := false }, some .graceful)
    else ({ s with alive := false }, some .killed)
  else (s, none)

/-- The `finally:` block of `handle_client` (lines 193–194): the ONLY
teardown performed when a client disconnects is
`self.clients.discard(websocket)` — terminal sessions are not touched. -/
def handleClientFinally (st : PState) (ws : Nat) : PState :=
  { st with clients := st.clients.erase ws }

/-- `TerminalPlugin.cleanup` (lines 687–708): terminate the UI process
(3-second grace, escalating to kill), close the UDP socket, terminate
every terminal session (each with its own 3-second grace and kill
escalation, per `terminateSession`), and clear the registry.
`g sid` tells whether session `sid`'s process exits within the grace
period. -/
def cleanup (st : PState) (g : String → Bool) : PState × List (Option TermOutcome) :=
  let outs := st.sessions.map (fun p => (terminateSession p.2 (g p.1)).2)
  ({ st with sessions := [], uiProc := false, uiSock := false }, outs)

/-!
File-editor capability operations (`_write_file` / `_edit_file`,
file-editor plugin lines 305–443).  The filesystem is embedded as a map
from paths to contents plus the list of `os.makedirs` targets;
`_resolve_path` / `os.path.realpath` normalization is OS-level
canonicalization and is modelled as the identity on the already-given
path string — it computes no effect and the ordering claims do not
depend on it.
-/

structure FState where
  files : List (String × String)
  dirs : List String
  deriving DecidableEq, Repr

/-- Read a file's content if it exists (`os.path.isfile` + `open(...,"r")`). -/
def fsRead (fs : FState) (p : String) : Option String :=
  (fs.files.find? (fun q => q.1 = p)).map (fun q => q.2)

/-- Write (create or overwrite) a file. -/
def fsWrite (fs : FState) (p c : String) : FState :=
  { fs with files := (p, c) :: fs.files.filter (fun q => !(q.1 = p)) }

/-- `_resolve_path` (identity model, see section comment). -/
def resolvePath (p : String) : String := p

/-- The characters of `os.path.dirname p`: everything before the last
slash. -/
def dirnameChars (l : List Char) : List Char :=
  ((l.reverse.dropWhile (fun c => c ≠ '/')).drop 1).reverse

/-- `os.path.dirname (os.path.abspath p)` over the model path. -/
def dirnameOf (p : String) : String := String.mk (dirnameChars p.toList)

/-- `_check_path_allowed` (file-editor lines 197–205): empty config
allows everything; otherwise the resolved path must start with one of
the comma-separated, stripped, non-empty allowed directories. -/
def checkPathAllowed (cfg : Config) (path : String) : Bool :=
  let allowed := getAllowedDirs cfg
  if allowed = "" then true
  else ((splitOnCommaChars allowed.toList).map trimChars).any
    (fun d => !d.isEmpty && startsWithChars d path.toList)

/-- Python's non-overlapping `original.count(old)` on character lists.
After a match of a non-empty needle at `c :: cs`, counting resumes
`old.length` characters later, i.e. at `cs.drop (old.length - 1)`. -/
def countOccur (old : List Char) : List Char → Nat
  | [] => if old = [] then 1 else 0
  | c :: cs =>
      if old = [] then (c :: cs).length + 1
      else
        if startsWithChars old (c :: cs) then 1 + countOccur old (cs.drop (old.length - 1))
        else countOccur old cs
  termination_by l => l.length
  decreasing_by
  · simp only [List.length_drop, List.length_cons]
    omega
  · simp only [List.length_cons]
    omega

/-- Python's `original.replace(old, new, 1)` on character lists. -/
def replaceFirstChars (old new : List Char) : List Char → List Char
  | [] => if old = [] then new else []
  | c :: cs =>
      if old = [] then new ++ c :: cs
      else
        if startsWithChars old (c :: cs) then new ++ cs.drop (old.length - 1)
        else c :: replaceFirstChars old new cs

/-- The file editor's `_error(msg, key)` response (lines 226–236). -/
def feErrorResp (key : String) : Response :=
  { success := false, errorKey := some key }

/-- The file editor's `_error(msg, key, perm)` response. -/
def feErrorRespP (key perm : String) : Response :=
  { success := false, errorKey := some key, requiredPermission := some perm }

/-- The file editor's `_ok(action, content, perm)` response (lines
238–248); the `result.content` payload is not tracked. -/
def feOkResp (action : String) (perm : Option String) : Response :=
  { success := true, action := some action, requiredPermission := perm }

/-- What one file-editor operation produces. -/
structure FOut where
  fs : FState
  resp : Response
  udpAttempted : List UEvent := []
  udpDelivered : List UEvent := []

/-- `_write_file` (file-editor lines 305–363), in the code's exact
statement order: required-parameter checks, path resolution and
allow-list check, the permission gate, then — only when granted —
old-content read, optional `.bak` backup (failure swallowed,
`backupOk`), `os.makedirs` of the parent directory, the write itself,
and the UI diff event with both contents sliced to 3000 characters. -/
def writeFileOp (fs : FState) (cfg : Config) (uiSock : Bool)
    (params : Params) (eff : StepEff) : FOut :=
  match params.path with
  | none => { fs := fs, resp := feErrorResp "error.path_required" }
  | some path0 =>
    if path0 = "" then { fs := fs, resp := feErrorResp "error.path_required" }
    else
      match params.content with
      | none => { fs := fs, resp := feErrorResp "error.content_required" }
      | some content =>
        let path := resolvePath path0
        if !checkPathAllowed cfg path then
          { fs := fs, resp := feErrorResp "error.path_not_allowed" }
        else if !eff.grant then
          { fs := fs, resp := feErrorRespP "error.permission_denied" "file.write" }
        else
          let isNew := (fsRead fs path).isNone
          let oldContent := (fsRead fs path).getD ""
          let fs1 :=
            if !isNew && getBackupBeforeEdit cfg && eff.backupOk then
              fsWrite fs (path ++ ".bak") oldContent
            else fs
          let fs2 := { fs1 with dirs := dirnameOf path :: fs1.dirs }
          let fs3 := fsWrite fs2 path content
          let bc := broadcastToUI uiSock eff.sendOk
            { etype := "file_op", event := "write",
              oldContent := some (strTake oldContent 3000),
              newContent := some (strTake content 3000) }
          { fs := fs3, resp := feOkResp "writeFile" (some "file.write"),
            udpAttempted := bc.attempted, udpDelivered := bc.delivered }

/-- `_edit_file` (file-editor lines 365–443), in the code's exact
statement order: required-parameter checks, path resolution and
allow-list check, `os.path.isfile`, the permission gate, then — only
when granted — the unique-match check on `old_text`, optional backup,
the single replacement write, and the UI diff event with both texts
sliced to 2000 characters. -/
def editFileOp (fs : FState) (cfg : Config) (uiSock : Bool)
    (params : Params) (eff : StepEff) : FOut :=
  match params.path with
  | none => { fs := fs, resp := feErrorResp "error.path_required" }
  | some path0 =>
    if path0 = "" then { fs := fs, resp := feErrorResp "error.path_required" }
    else
      match params.old_text with
      | none => { fs := fs, resp := feErrorResp "error.old_text_required" }
      | some oldText =>
        match params.new_text with
        | none => { fs := fs, resp := feErrorResp "error.new_text_required" }
        | some newText =>
          let path := resolvePath path0
          if !checkPathAllowed cfg path then
            { fs := fs, resp := feErrorResp "error.path_not_allowed" }
          else
            match fsRead fs path with
            | none => { fs := fs, resp := feErrorResp "error.file_not_found" }
            | some original =>
              if !eff.grant then
                { fs := fs, resp := feErrorRespP "error.permission_denied" "file.edit" }
              else
                let count := countOccur oldText.toList original.toList
                if count = 0 then
                  { fs := fs, resp := feErrorResp "error.old_text_not_found" }
                else if count > 1 then
                  { fs := fs, resp := feErrorResp "error.old_text_ambiguous" }
                else
                  let fs1 :=
                    if getBackupBeforeEdit cfg && eff.backupOk then
                      fsWrite fs (path ++ ".bak") original
                    else fs
                  let edited := String.mk
                    (replaceFirstChars oldText.toList newText.toList original.toList)
                  let fs2 := fsWrite fs1 path edited
                  let bc := broadcastToUI uiSock eff.sendOk
                    { etype := "file_op", event := "edit",
                      oldContent := some (strTake oldText 2000),
                      newContent := some (strTake newText 2000) }
                  { fs := fs2, resp := feOkResp "editFile" (some "file.edit"),
                    udpAttempted := bc.attempted, udpDelivered := bc.delivered }

/-- The `stdout` field of the `command_output` UDP event the terminal
plugin broadcasts after a (non-dangerous, granted) command finishes with
standard output `s` (`execute_command` lines 377–381). -/
def commandOutputEventStdout (s : String) : Option String :=
  ((executeCommand [] 0 true { command := some "echo hi" }
      { runResult := .finished s "" 0 }).udpAttempted.get? 1).bind
    (fun ev => ev.stdout)

/-- At most one successful `EventEmitter` bootstrap: `_ui_process` is
set exactly when one successful `_start_ui` has happened. -/
def UIInv (st : PState) : Prop :=
  st.startCount ≤ 1 ∧ (st.uiProc = true ↔ st.startCount = 1)

instance (st : PState) : Decidable (UIInv st) := by
  unfold UIInv; infer_instance

/-!
Theorems.
-/

/-- Every registry transition preserves the broker invariant. -/
theorem brokerStep_inv {st : BrokerState} (e : BEvent) (h : BrokerInv st) :
    BrokerInv (brokerStep st e).1 := by
  obtain ⟨hnd, hpb, hrb, hrp, hrd⟩ := h
  cases e with
  | request =>
      refine ⟨?_, ?_, ?_, ?_, ?_⟩
      · simp only [brokerStep, List.nodup_cons]
        exact ⟨fun hm => lt_irrefl _ (hpb _ hm), hnd⟩
      · intro i hi
        simp only [brokerStep, List.mem_cons] at hi
        rcases hi with rfl | hi
        · exact Nat.lt_succ_self _
        · exact Nat.lt_succ_of_lt (hpb _ hi)
      · intro i hi
        exact Nat.lt_succ_of_lt (hrb _ hi)
      · intro i hi
        simp only [brokerStep, List.mem_cons, not_or]
        refine ⟨fun hq => ?_, hrp _ hi⟩
        exact lt_irrefl _ (hq ▸ hrb _ hi)
      · exact hrd
  | response id g =>
      by_cases hm : id ∈ st.pending
      · simp only [brokerStep, if_pos hm]
        refine ⟨hnd.erase id, ?_, ?_, ?_, ?_⟩
        · intro i hi
          exact hpb _ (List.mem_of_mem_erase hi)
        · intro i hi
          rcases List.mem_cons.1 hi with rfl | hi
          · exact hpb _ hm
          · exact hrb _ hi
        · intro i hi
          rcases List.mem_cons.1 hi with rfl | hi
          · exact hnd.not_mem_erase
          · exact fun hq => hrp _ hi (List.mem_of_mem_erase hq)
        · exact List.nodup_cons.2 ⟨fun hq => hrp _ hq hm, hrd⟩
      · simpa only [brokerStep, if_neg hm] using ⟨hnd, hpb, hrb, hrp, hrd⟩
  | timeout id =>
      by_cases hm : id ∈ st.pending
      · simp only [brokerStep, if_pos hm]
        refine ⟨hnd.erase id, ?_, ?_, ?_, ?_⟩
        · intro i hi
          exact hpb _ (List.mem_of_mem_erase hi)
        · intro i hi
          rcases List.mem_cons.1 hi with rfl | hi
          · exact hpb _ hm
          · exact hrb _ hi
        · intro i hi
          rcases List.mem_cons.1 hi with rfl | hi
          · exact hnd.not_mem_erase
          · exact fun hq => hrp _ hi (List.mem_of_mem_erase hq)
        · exact List.nodup_cons.2 ⟨fun hq => hrp _ hq hm, hrd⟩
      · simpa only [brokerStep, if_neg hm] using ⟨hnd, hpb, hrb, hrp, hrd⟩

/-- Running any event trace preserves the broker invariant. -/
theorem brokerRun_inv {st : BrokerState} (evs : List BEvent) (h : BrokerInv st) :
    BrokerInv (brokerRun st evs).1 := by
  induction evs generalizing st with
  | nil => exact h
  | cons e es ih => exact ih (brokerStep_inv e h)

/-- The ghost `resolvedIds` field records exactly the resolutions a run
emits (most recent first) on top of whatever was already recorded. -/
theorem brokerRun_resolvedIds (st : BrokerState) (evs : List BEvent) :
    (brokerRun st evs).1.resolvedIds =
      ((brokerRun st evs).2.map Prod.fst).reverse ++ st.resolvedIds := by
  induction evs generalizing st with
  | nil => simp [brokerRun]
  | cons e es ih =>
      have hstep : (brokerStep st e).1.resolvedIds =
          ((brokerStep st e).2.toList.map Prod.fst).reverse ++ st.resolvedIds := by
        cases e with
        | request => simp [brokerStep]
        | response id g =>
            by_cases hm : id ∈ st.pending <;> simp [brokerStep, hm]
        | timeout id =>
            by_cases hm : id ∈ st.pending <;> simp [brokerStep, hm]
      simp only [brokerRun, List.map_append, List.reverse_append]
      rw [ih, hstep, List.append_assoc]

/-- C2: every permission request registers a fresh correlation id (never
shared with an outstanding one), each id is resolved at most once along
any run — the resolution list carries pairwise-distinct ids — and an id
is removed from the pending registry upon resolution; a
`permission_response` whose id is not in the registry is silently
ignored, leaving the state unchanged and producing no resolution; the
call itself returns the carried `granted` boolean on response and `false`
(fail-closed) on timeout. -/
theorem C2_permission_broker (st : BrokerState) (evs : List BEvent) (h : BrokerInv st) :
    st.nextId ∉ st.pending
    ∧ BrokerInv (brokerRun st evs).1
    ∧ ((brokerRun st evs).2.map Prod.fst).Nodup
    ∧ (∀ id ∈ (brokerRun st evs).1.resolvedIds, id ∉ (brokerRun st evs).1.pending)
    ∧ (∀ id g, id ∉ (brokerRun st evs).1.pending →
        brokerStep (brokerRun st evs).1 (.response id g) = ((brokerRun st evs).1, none))
    ∧ (∀ g, requestPermissionReturn (some g) = g)
    ∧ requestPermissionReturn none = false := by
  have hinv := brokerRun_inv evs h
  obtain ⟨hnd, hpb, hrb, hrp, hrd⟩ := hinv
  refine ⟨?_, ⟨hnd, hpb, hrb, hrp, hrd⟩, ?_, hrp, ?_, fun g => rfl, rfl⟩
  · exact fun hm => lt_irrefl _ (h.2.1 _ hm)
  · have := brokerRun_resolvedIds st evs
    rw [this] at hrd
    exact List.nodup_reverse.1 hrd.of_append_left
  · intro id g hm
    simp [brokerStep, hm]

/-- Witness for C2 at a concrete run: register one request and resolve
it by response. -/
theorem C2_permission_broker_witness :
    BrokerInv (brokerRun brokerInit [BEvent.request, BEvent.response 0 true]).1 :=
  (C2_permission_broker brokerInit [BEvent.request, BEvent.response 0 true]
    (by decide)).2.1

/-- C1: a dispatched `ActionRequest` carrying a `requestId` never lets an
exception escape the dispatch task; every frame the task successfully
writes to the channel is a `plugin_response` echoing that `requestId`;
at most one frame is written; and when the channel write succeeds
(`w1 = true`) exactly one is written — whatever the operation's outcome
(`eff` ranges over success, validation failure, permission denial and
unexpected exceptions).  A failed write is swallowed: `raised = false`
in every case. -/
theorem C1_dispatcher_single_response (cfg : Config) (freshId : Nat) (uiSock : Bool)
    (m : Msg) (eff : StepEff) (w1 w2 : Bool) (r : Nat) (h : m.requestId = some r) :
    (dispatchAction cfg freshId uiSock m eff w1 w2).raised = false
    ∧ (∀ f ∈ (dispatchAction cfg freshId uiSock m eff w1 w2).written,
        ∃ resp : Response, f = Frame.response resp ∧ resp.requestId = some r)
    ∧ (dispatchAction cfg freshId uiSock m eff w1 w2).written.length ≤ 1
    ∧ (w1 = true →
        (dispatchAction cfg freshId uiSock m eff w1 w2).written.length = 1) := by
  cases w1 <;> cases w2 <;>
    simp [dispatchAction, h]

/-- Witness for C1: dispatch a well-formed `execute` request with
`requestId = 7` whose write succeeds. -/
theorem C1_dispatcher_single_response_witness :
    ({ requestId := some 7, action := some "execute",
       params := { command := some "ls" } } : Msg).requestId = some 7
    ∧ (dispatchAction [] 0 false
        { requestId := some 7, action := some "execute",
          params := { command := some "ls" } } {} true true).raised = false :=
  ⟨rfl, (C1_dispatcher_single_response [] 0 false _ {} true true 7 rfl).1⟩

/-- A Python slice `s[:n]` has at most `n` characters. -/
theorem strTake_length_le (s : String) (n : Nat) : (strTake s n).length ≤ n := by
  have h : (strTake s n).length = (s.toList.take n).length := rfl
  rw [h, List.length_take]
  exact min_le_left _ _

/-- No branch of the pump-loop body ever changes the session status. -/
theorem pumpStep_active (st : PState) (i : Inbound) (e : StepEff) :
    (pumpStep st i e).1.active = st.active := by
  cases i with
  | malformed => rfl
  | msg m =>
      simp only [pumpStep]
      repeat' split
      all_goals rfl

/-- No inbound trace ever changes the session status: the pump leaves
`Active` only when the channel itself closes, outside the loop. -/
theorem pumpRun_active (st : PState) (tr : List (Inbound × StepEff)) :
    (pumpRun st tr).1.active = st.active := by
  induction tr generalizing st with
  | nil => rfl
  | cons p tr ih =>
      simp only [pumpRun]
      rw [ih, pumpStep_active]

/-- C3: a failure raised while executing a dispatched operation
(`routeAction` producing `.error e`) is converted by `handle_message`'s
exception handler into a `success := false` response with error kind
`ExecutionError` (`errorKey "error.execution_failed"`); the dispatch
task never lets an exception escape (`raised = false`); a pump step
leaves the session status untouched; and the pump keeps processing the
remaining frames of the trace after any frame. -/
theorem C3_exceptions_stop_at_dispatcher (cfg : Config) (freshId : Nat) (uiSock : Bool)
    (m : Msg) (eff : StepEff) (w1 w2 : Bool) (e : String) (st : PState)
    (i : Inbound) (se : StepEff) (tr : List (Inbound × StepEff))
    (h : (routeAction cfg freshId uiSock m eff).out = Except.error e) :
    (handleMessage cfg freshId uiSock m eff).resp.success = false
    ∧ (handleMessage cfg freshId uiSock m eff).resp.errorKey =
        some "error.execution_failed"
    ∧ (dispatchAction cfg freshId uiSock m eff w1 w2).raised = false
    ∧ (pumpStep st i se).1.active = st.active
    ∧ (pumpRun st ((i, se) :: tr)).2 =
        (pumpStep st i se).2 ++ (pumpRun (pumpStep st i se).1 tr).2 := by
  refine ⟨?_, ?_, ?_, pumpStep_active st i se, rfl⟩
  · simp [handleMessage, h, execFailedResp]
  · simp [handleMessage, h, execFailedResp]
  · cases w1 <;> cases w2 <;> simp [dispatchAction]

/-- Witness for C3: `subprocess.run` raising an OS error inside
`execute` is caught and reported as `error.execution_failed`. -/
theorem C3_exceptions_stop_at_dispatcher_witness :
    (routeAction [] 0 false
        { action := some "execute", params := { command := some "ls" } }
        { runResult := RunOutcome.osError "boom" }).out = Except.error "boom"
    ∧ (handleMessage [] 0 false
        { action := some "execute", params := { command := some "ls" } }
        { runResult := RunOutcome.osError "boom" }).resp.success = false :=
  ⟨by rfl,
   (C3_exceptions_stop_at_dispatcher [] 0 false _ _ true true "boom"
      initialPState Inbound.malformed {} [] (by rfl)).1⟩

/-- C4: when a dangerous `execute` action's permission resolves to
denied — an explicit denial, or a timeout, which fail-closed resolves to
`false` — the dispatched response has `success := false`, error kind
`PermissionDenied` and `requiredPermission = "terminal.execute"`, and it
echoes the original action's `requestId`, while the correlation id on
the emitted `permission_request` frame is the fresh `freshId`, a
different value. -/
theorem C4_denied_permission_response (cfg : Config) (freshId : Nat) (uiSock : Bool)
    (m : Msg) (eff : StepEff) (c : String) (r : Nat)
    (ha : m.action = some "execute")
    (hc : m.params.command = some c) (hne : c ≠ "")
    (hd : isDangerousCommand cfg c = true)
    (hg : eff.grant = false)
    (hr : m.requestId = some r) (hdist : r ≠ freshId) :
    (dispatchAction cfg freshId uiSock m eff true true).written =
      [Frame.response { success := false, errorKey := some "error.permission_denied",
                        requiredPermission := some "terminal.execute",
                        requestId := some r }]
    ∧ (dispatchAction cfg freshId uiSock m eff true true).chan =
        [Frame.permissionRequest freshId "terminal.execute" "execute_command"]
    ∧ (some r : Option Nat) ≠ some freshId
    ∧ requestPermissionReturn none = false := by
  refine ⟨?_, ?_, by simpa using hdist, rfl⟩ <;>
    simp [dispatchAction, handleMessage, routeAction, executeCommand,
      ha, hc, hne, hd, hg, hr, errorResp]

/-- Witness for C4: `rm -rf /tmp/x` (dangerous by the default list) with
the grant resolving to denied, action `requestId = 5`, correlation id 0. -/
theorem C4_denied_permission_response_witness :
    (dispatchAction [] 0 false
        { action := some "execute", requestId := some 5,
          params := { command := some "rm -rf /tmp/x" } }
        { grant := false } true true).written =
      [Frame.response { success := false, errorKey := some "error.permission_denied",
                        requiredPermission := some "terminal.execute",
                        requestId := some 5 }] :=
  (C4_denied_permission_response [] 0 false _ _ "rm -rf /tmp/x" 5 rfl rfl
    (by decide) (by decide) rfl rfl (by decide)).1

/-- C5: an inbound action frame whose name is none of the handled
control actions and none of the registered operations is dispatched and
answered with exactly one `success := false`, `error.unknown_action`
response echoing the frame's `requestId`; the session state, its
`Active` status included, is unchanged. -/
theorem C5_unknown_action (st : PState) (eff : StepEff) (m : Msg) (a : String) (r : Nat)
    (ha : m.action = some a)
    (hm1 : a ≠ "getMetadata") (hm2 : a ≠ "setLocale") (hm3 : a ≠ "getConfig")
    (hreg : a ∉ registeredActions)
    (ht1 : m.mtype ≠ some "plugin_config") (ht2 : m.mtype ≠ some "permission_response")
    (hr : m.requestId = some r) :
    pumpStep st (.msg m) eff =
      (st, [Frame.response { success := false, errorKey := some "error.unknown_action",
                             requestId := some r }]) := by
  simp only [registeredActions, List.mem_cons, List.mem_singleton, not_or] at hreg
  obtain ⟨h1, h2, h3, h4, h5, h6, h7, _⟩ := hreg
  simp [pumpStep, ha, hm1, hm2, hm3, ht1, ht2, dispatchAction, handleMessage,
    routeAction, h1, h2, h3, h4, h5, h6, h7, hr, unknownActionResp]

/-- Witness for C5: the scenario from the spec — action `"foo"`,
`requestId` echoed, session untouched. -/
theorem C5_unknown_action_witness :
    pumpStep initialPState
      (.msg { action := some "foo", requestId := some 1 }) {} =
      (initialPState,
        [Frame.response { success := false, errorKey := some "error.unknown_action",
                          requestId := some 1 }]) :=
  C5_unknown_action initialPState {} _ "foo" 1 rfl (by decide) (by decide) (by decide)
    (by decide) (by decide) (by decide) rfl

/-- Every pump-loop branch preserves the at-most-one-bootstrap
invariant. -/
theorem pumpStep_uiInv (st : PState) (i : Inbound) (e : StepEff) (h : UIInv st) :
    UIInv (pumpStep st i e).1 := by
  obtain ⟨h1, h2⟩ := h
  cases i with
  | malformed => exact ⟨h1, h2⟩
  | msg m =>
      simp only [pumpStep]
      repeat' split
      all_goals try exact ⟨h1, h2⟩
      all_goals
        rename_i hguard hok
        simp only [Bool.and_eq_true, Bool.not_eq_true'] at hguard
        have hup : st.uiProc = false := hguard.2
        have hne : st.startCount ≠ 1 := by
          intro hc
          have h2' := h2.2 hc
          rw [hup] at h2'
          exact Bool.false_ne_true h2'
        have hc0 : st.startCount = 0 := by omega
        exact ⟨by simp [hok, hc0], by simp [hok, hc0]⟩

/-- Any inbound trace preserves the at-most-one-bootstrap invariant. -/
theorem pumpRun_uiInv (st : PState) (tr : List (Inbound × StepEff)) (h : UIInv st) :
    UIInv (pumpRun st tr).1 := by
  induction tr generalizing st with
  | nil => exact h
  | cons p tr ih => exact ih _ (pumpStep_uiInv st p.1 p.2 h)

/-- C8: a `plugin_config` frame replaces the configuration map wholesale
(the new map is `cfgNew` no matter what the old map held); along any
trace from a state satisfying the bootstrap invariant the number of
successful `EventEmitter` bootstraps stays at most one; the count can
grow on a step only when that step is a qualifying `plugin_config`
arrival (`show_ui` truthy) with no UI process yet and a successful
start; and handling an explicit `getConfig` request leaves the state
unchanged and just re-emits the `getConfig` frame — idempotent. -/
theorem C8_config_wholesale_and_single_bootstrap (st : PState) (m gm : Msg)
    (e : StepEff) (cfgNew : Config) (tr : List (Inbound × StepEff))
    (ha1 : m.action ≠ some "getMetadata") (ha2 : m.action ≠ some "setLocale")
    (ha3 : m.action ≠ some "getConfig") (ht : m.mtype = some "plugin_config")
    (hcfg : m.config = some cfgNew)
    (hui : UIInv st)
    (hg : gm.action = some "getConfig") :
    (pumpStep st (.msg m) e).1.config = cfgNew
    ∧ UIInv (pumpRun st tr).1
    ∧ (pumpRun st tr).1.startCount ≤ 1
    ∧ ((pumpStep st (.msg m) e).1.startCount ≠ st.startCount →
        getShowUI cfgNew = true ∧ st.uiProc = false ∧ e.startOk = true
        ∧ (pumpStep st (.msg m) e).1.startCount = st.startCount + 1
        ∧ (pumpStep st (.msg m) e).1.uiProc = true)
    ∧ pumpStep st (.msg gm) e = (st, [Frame.getConfigRequest]) := by
  have hrun := pumpRun_uiInv st tr hui
  refine ⟨?_, hrun, hrun.1, ?_, ?_⟩
  · simp only [pumpStep, if_neg ha1, if_neg ha2, if_neg ha3, if_pos ht, hcfg,
      Option.getD_some]
    split <;> rfl
  · simp only [pumpStep, if_neg ha1, if_neg ha2, if_neg ha3, if_pos ht, hcfg,
      Option.getD_some]
    split
    · rename_i hguard
      simp only [Bool.and_eq_true, Bool.not_eq_true'] at hguard
      cases hok : e.startOk with
      | false => simp [hok]
      | true =>
          intro _
          exact ⟨hguard.1, hguard.2, rfl, by simp [hok], by simp [hok]⟩
    · intro hne
      exact absurd rfl hne
  · simp [pumpStep, hg]

/-- Witness for C8: a first `plugin_config` with `show_ui = true`
replaces the empty map. -/
theorem C8_config_wholesale_and_single_bootstrap_witness :
    (pumpStep initialPState
        (.msg { mtype := some "plugin_config",
                config := some [("show_ui", CVal.b true)] }) {}).1.config =
      [("show_ui", CVal.b true)] :=
  (C8_config_wholesale_and_single_bootstrap initialPState
    { mtype := some "plugin_config", config := some [("show_ui", CVal.b true)] }
    { action := some "getConfig" } {} [("show_ui", CVal.b true)] []
    (by decide) (by decide) (by decide) rfl rfl (by decide) rfl).1

/-- C6: a payload that fails JSON decoding makes the pump emit exactly
one `success := false` `ProtocolError` (`error.invalid_json`) response,
leaves the session state (status included) unchanged, and the pump goes
on to process the rest of the trace exactly as it would have without the
malformed frame. -/
theorem C6_malformed_frame (st : PState) (eff : StepEff)
    (tr : List (Inbound × StepEff)) :
    pumpStep st .malformed eff = (st, [Frame.response invalidJsonResp])
    ∧ invalidJsonResp.success = false
    ∧ invalidJsonResp.errorKey = some "error.invalid_json"
    ∧ pumpRun st ((Inbound.malformed, eff) :: tr) =
        ((pumpRun st tr).1, Frame.response invalidJsonResp :: (pumpRun st tr).2)
    ∧ (pumpRun st ((Inbound.malformed, eff) :: tr)).1.active = st.active := by
  refine ⟨rfl, rfl, rfl, ?_, ?_⟩
  · simp [pumpRun, pumpStep]
  · simp only [pumpRun]
    rw [pumpRun_active, pumpStep_active]

/-- C7 counterexample: the claim says teardown on PEER DISCONNECT also
terminates every live subprocess-backed terminal session, but the
`finally:` block of `handle_client` only discards the client from
`self.clients`: after a disconnect with one live session, that session
is still registered and its process still alive. -/
theorem C7_counterexample_disconnect_keeps_sessions :
    (handleClientFinally
        { initialPState with sessions := [("s1", { hasProc := true, alive := true })] }
        0).sessions = [("s1", { hasProc := true, alive := true })]
    ∧ ({ hasProc := true, alive := true } : TermSess).alive = true := ⟨rfl, rfl⟩

/-- C7 amended: on LOCAL SHUTDOWN, `cleanup` terminates every
subprocess-backed terminal session within the 3-second grace period,
escalating to a forced kill when graceful termination does not complete
in time, and clears the registry; on peer disconnect, however, the only
resource released is the client registration — the terminal sessions
survive untouched. -/
theorem C7_cleanup_terminates_sessions (st : PState) (g : String → Bool)
    (p : String × TermSess) (_hp : p ∈ st.sessions) (hproc : p.2.hasProc = true) :
    (cleanup st g).1.sessions = []
    ∧ (terminateSession p.2 (g p.1)).1.alive = false
    ∧ (g p.1 = true → (terminateSession p.2 (g p.1)).2 = some TermOutcome.graceful)
    ∧ (g p.1 = false → (terminateSession p.2 (g p.1)).2 = some TermOutcome.killed)
    ∧ terminateGraceSeconds = 3
    ∧ (∀ st' ws, (handleClientFinally st' ws).sessions = st'.sessions) := by
  refine ⟨rfl, ?_, ?_, ?_, rfl, fun st' ws => rfl⟩ <;>
    cases hgp : g p.1 <;> simp [terminateSession, hproc]

/-- Witness for C7's amended statement: one live session, graceful
termination succeeding. -/
theorem C7_cleanup_terminates_sessions_witness :
    (cleanup { initialPState with
        sessions := [("s1", { hasProc := true, alive := true })] }
      (fun _ => true)).1.sessions = [] :=
  (C7_cleanup_terminates_sessions _ (fun _ => true)
    ("s1", { hasProc := true, alive := true }) (by decide) rfl).1

/-- C9 counterexample: the claim says every event payload is truncated
to a bounded size before emission, but the terminal plugin's
`command_output` event carries the full `result.stdout` verbatim — no
bound `B` caps its length. -/
theorem C9_counterexample_untruncated_stdout :
    ¬ ∃ B : Nat, ∀ s : String, ∀ t ∈ commandOutputEventStdout s, t.length ≤ B := by
  have hval : ∀ s : String, commandOutputEventStdout s = some s := by
    intro s
    have hd : isDangerousCommand [] "echo hi" = false := by decide
    simp [commandOutputEventStdout, executeCommand, hd, broadcastToUI]
  rintro ⟨B, hB⟩
  have hlen := hB (String.mk (List.replicate (B + 1) 'a')) _
    (by rw [hval]; exact rfl)
  simp [String.length] at hlen

/-- C9 amended: telemetry emission is strictly best-effort — a delivery
failure is swallowed inside `broadcast_to_ui` and the emitting
operation's own response is identical whether the UDP send succeeds or
fails — and the FILE-EDITOR plugin's diff events truncate their content
previews to 3000 characters; the terminal plugin's `command_output`
events, however, carry stdout/stderr untruncated. -/
theorem C9_best_effort_telemetry (uiSock sendOk : Bool) (ev : UEvent)
    (cfg : Config) (fid : Nat) (us : Bool) (params wparams : Params)
    (eff : StepEff) (a b : Bool) (fs : FState) :
    (broadcastToUI uiSock sendOk ev).raised = false
    ∧ (executeCommand cfg fid us params { eff with sendOk := a }).out =
        (executeCommand cfg fid us params { eff with sendOk := b }).out
    ∧ (writeFileOp fs cfg us wparams { eff with sendOk := a }).resp =
        (writeFileOp fs cfg us wparams { eff with sendOk := b }).resp
    ∧ (∀ evw ∈ (writeFileOp fs cfg us wparams eff).udpAttempted,
        (∀ t ∈ evw.oldContent, t.length ≤ 3000)
        ∧ (∀ t ∈ evw.newContent, t.length ≤ 3000))
    ∧ (∀ evw ∈ (editFileOp fs cfg us wparams eff).udpAttempted,
        (∀ t ∈ evw.oldContent, t.length ≤ 2000)
        ∧ (∀ t ∈ evw.newContent, t.length ≤ 2000)) := by
  refine ⟨?_, ?_, ?_, ?_, ?_⟩
  · simp only [broadcastToUI]
    split <;> rfl
  · simp only [executeCommand, broadcastToUI]
    repeat' split
    all_goals rfl
  · simp only [writeFileOp, broadcastToUI]
    repeat' split
    all_goals rfl
  · simp only [writeFileOp]
    repeat' split
    all_goals intro evw hmem
    all_goals first
      | exact absurd hmem (List.not_mem_nil evw)
      | (simp only [broadcastToUI] at hmem
         split at hmem
         · simp only [List.mem_singleton] at hmem
           subst hmem
           constructor <;> intro t ht <;>
             simp only [Option.mem_def, Option.some_inj] at ht <;>
             (rw [← ht]; exact strTake_length_le _ _)
         · exact absurd hmem (List.not_mem_nil evw))
  · simp only [editFileOp]
    repeat' split
    all_goals intro evw hmem
    all_goals first
      | exact absurd hmem (List.not_mem_nil evw)
      | (simp only [broadcastToUI] at hmem
         split at hmem
         · simp only [List.mem_singleton] at hmem
           subst hmem
           constructor <;> intro t ht <;>
             simp only [Option.mem_def, Option.some_inj] at ht <;>
             (rw [← ht]; exact strTake_length_le _ _)
         · exact absurd hmem (List.not_mem_nil evw))

/-- Witness for C9's amended statement at concrete inputs. -/
theorem C9_best_effort_telemetry_witness :
    (broadcastToUI true false { etype := "t", event := "e" }).raised = false :=
  (C9_best_effort_telemetry true false { etype := "t", event := "e" }
    [] 0 false {} {} {} true false { files := [], dirs := [] }).1

/-- C10: with the permission grant resolving to denied, `_write_file`
and `_edit_file` leave the filesystem (files, backups, directories)
exactly as it was, and a dangerous `execute` never reaches
`subprocess.run` — no shell process is spawned. -/
theorem C10_no_side_effects_before_grant (fs : FState) (cfg : Config) (us : Bool)
    (params : Params) (eff : StepEff) (fid : Nat) (c : String)
    (hg : eff.grant = false) :
    (writeFileOp fs cfg us params eff).fs = fs
    ∧ (editFileOp fs cfg us params eff).fs = fs
    ∧ (params.command = some c → isDangerousCommand cfg c = true →
        (executeCommand cfg fid us params eff).spawned = []) := by
  refine ⟨?_, ?_, ?_⟩
  · simp only [writeFileOp, hg]
    repeat' split
    all_goals first
      | rfl
      | simp_all
  · simp only [editFileOp, hg]
    repeat' split
    all_goals first
      | rfl
      | simp_all
  · intro hc hd
    simp only [executeCommand, hc, hd, hg]
    split
    · rfl
    · simp

/-- Witness for C10: a denied write to an existing file changes
nothing. -/
theorem C10_no_side_effects_before_grant_witness :
    (writeFileOp { files := [("/home/u/a.txt", "old")], dirs := [] } [] false
        { path := some "/home/u/a.txt", content := some "new" }
        { grant := false }).fs = { files := [("/home/u/a.txt", "old")], dirs := [] } :=
  (C10_no_side_effects_before_grant { files := [("/home/u/a.txt", "old")], dirs := [] }
    [] false { path := some "/home/u/a.txt", content := some "new" }
    { grant := false } 0 "" rfl).1

end NyaPet
